import Mathlib

/-!
Shallow embedding of the `i2clcd` Go package (file `i2clcd.go`): a driver
for an HD44780-style character LCD behind an I2C port expander.

The embedding models each Go method as a Lean function over the session
state `I2CLCD`.  The observable behaviour of an operation is a trace of
events: bytes written to the expander over the I2C bus, and sleeps.  The
underlying `bus.Tx` transport call can succeed or fail; its result is
modelled by an oracle `Bus : Nat → Bool` giving the result of the k-th
transaction, threaded through the functions by a call counter — exactly as
in the Go source, the result of each transaction is read and then
discarded.  Each write event also records, as a ghost annotation, the value
of the session's backlight flag at the moment the write is issued.
-/

namespace i2clcd

/-- Command constant from the source: clear display. -/
def LCD_CLEARDISPLAY : Nat := 0x01

/-- Command constant: return home. -/
def LCD_RETURNHOME : Nat := 0x02

/-- Command constant: entry mode set. -/
def LCD_ENTRYMODESET : Nat := 0x04

/-- Command constant: display control. -/
def LCD_DISPLAYCONTROL : Nat := 0x08

/-- Command constant: cursor shift. -/
def LCD_CURSORSHIFT : Nat := 0x10

/-- Command constant: function set. -/
def LCD_FUNCTIONSET : Nat := 0x20

/-- Command constant: set CGRAM address. -/
def LCD_SETCGRAMADDR : Nat := 0x40

/-- Command constant: set DDRAM address. -/
def LCD_SETDDRAMADDR : Nat := 0x80

/-- Entry mode flag: right. -/
def LCD_ENTRYRIGHT : Nat := 0x00

/-- Entry mode flag: left. -/
def LCD_ENTRYLEFT : Nat := 0x02

/-- Entry mode flag: shift increment. -/
def LCD_ENTRYSHIFTINCREMENT : Nat := 0x01

/-- Entry mode flag: shift decrement. -/
def LCD_ENTRYSHIFTDECREMENT : Nat := 0x00

/-- Display control flag: display on. -/
def LCD_DISPLAYON : Nat := 0x04

/-- Display control flag: display off. -/
def LCD_DISPLAYOFF : Nat := 0x00

/-- Display control flag: cursor on. -/
def LCD_CURSORON : Nat := 0x02

/-- Display control flag: cursor off. -/
def LCD_CURSOROFF : Nat := 0x00

/-- Display control flag: blink on. -/
def LCD_BLINKON : Nat := 0x01

/-- Display control flag: blink off. -/
def LCD_BLINKOFF : Nat := 0x00

/-- Backlight bit on the expander output byte. -/
def LCD_BACKLIGHT : Nat := 0x08

/-- No-backlight value. -/
def LCD_NOBACKLIGHT : Nat := 0x00

/-- Shift flag: move left. -/
def LCD_MOVELEFT : Nat := 0x00

/-- Shift flag: move right. -/
def LCD_MOVERIGHT : Nat := 0x04

/-- Scroll left command byte. -/
def LCD_SCROLLLEFT : Nat := 0x18

/-- Scroll right command byte. -/
def LCD_SCROLLRIGHT : Nat := 0x1C

/-- The session state of the driver (struct `I2CLCD` in the source).
`uint8` fields are Nats kept below 256; the opaque bus handle is modelled
separately as the transaction-result oracle. -/
structure I2CLCD where
  addr : Nat
  cols : Nat
  rows : Nat
  backlight : Bool
  display : Bool
  cursor : Bool
  blink : Bool
deriving DecidableEq, Repr

/-- Observable event of the driver: a byte written to the expander over the
bus — recording, as a ghost annotation, the backlight flag of the session
at the moment of the write — or a sleep, in milliseconds. -/
inductive Ev where
  | write (b : Nat) (bl : Bool)
  | sleep (ms : Nat)
deriving DecidableEq, Repr

/-- Transport oracle: result of the k-th `bus.Tx` call (`true` = success,
`false` = transport failure). -/
def Bus : Type := Nat → Bool

/-- A bus on which every transaction succeeds. -/
def busOk : Bus := fun _ => true

/-- A bus on which every transaction fails. -/
def busFail : Bus := fun _ => false

/-- Constructor `NewI2CLCD`: backlight and display flags start true,
cursor and blink false. -/
def NewI2CLCD (addr cols rows : Nat) : I2CLCD :=
  { addr := addr % 256, cols := cols % 256, rows := rows % 256,
    backlight := true, display := true, cursor := false, blink := false }

/-- Method `expanderWrite`: OR the persisted backlight bit into the data
byte and perform one single-byte bus transaction.  The Go source discards
the error returned by `bus.Tx`; accordingly the oracle is consulted and its
result dropped. -/
def expanderWrite (bus : Bus) (k : Nat) (lcd : I2CLCD) (data : Nat) :
    Nat × List Ev :=
  let backlight : Nat := if lcd.backlight then LCD_BACKLIGHT else 0x00
  let _ := bus k
  (k + 1, [Ev.write ((data ||| backlight) % 256) lcd.backlight])

/-- Method `pulseEnable`: write the data with the enable bit (0x04) high,
sleep 1 ms, write it with the enable bit low, sleep 1 ms. -/
def pulseEnable (bus : Bus) (k : Nat) (lcd : I2CLCD) (data : Nat) :
    Nat × List Ev :=
  let (k1, t1) := expanderWrite bus k lcd (data ||| 0x04)
  let (k2, t2) := expanderWrite bus k1 lcd (data &&& 0xFB)
  (k2, t1 ++ [Ev.sleep 1] ++ t2 ++ [Ev.sleep 1])

/-- Method `write4Bits`: write the value to the expander, then pulse the
enable line on it. -/
def write4Bits (bus : Bus) (k : Nat) (lcd : I2CLCD) (value : Nat) :
    Nat × List Ev :=
  let (k1, t1) := expanderWrite bus k lcd value
  let (k2, t2) := pulseEnable bus k1 lcd value
  (k2, t1 ++ t2)

/-- Method `send`: split the value into high and low nibble (each placed on
the upper four expander lines), OR in the mode bit, and transfer high
nibble first, then low nibble, each via `write4Bits`. -/
def send (bus : Bus) (k : Nat) (lcd : I2CLCD) (value mode : Nat) :
    Nat × List Ev :=
  let highNibble := value &&& 0xF0
  let lowNibble := (value <<< 4) &&& 0xF0
  let (k1, t1) := write4Bits bus k lcd (highNibble ||| mode)
  let (k2, t2) := write4Bits bus k1 lcd (lowNibble ||| mode)
  (k2, t1 ++ t2)

/-- Method `sendCommand`: send with mode bit 0. -/
def sendCommand (bus : Bus) (k : Nat) (lcd : I2CLCD) (cmd : Nat) :
    Nat × List Ev :=
  send bus k lcd cmd 0

/-- Method `sendData`: send with mode bit 1. -/
def sendData (bus : Bus) (k : Nat) (lcd : I2CLCD) (data : Nat) :
    Nat × List Ev :=
  send bus k lcd data 1

/-- Method `Backlight`: set the backlight flag, then refresh by writing
0x00 through `expanderWrite` (the backlight bit is ORed in there). -/
def Backlight (bus : Bus) (k : Nat) (lcd : I2CLCD) :
    I2CLCD × Nat × List Ev :=
  let lcd' := { lcd with backlight := true }
  let (k1, t1) := expanderWrite bus k lcd' 0x00
  (lcd', k1, t1)

/-- Method `NoBacklight`: clear the backlight flag, then refresh. -/
def NoBacklight (bus : Bus) (k : Nat) (lcd : I2CLCD) :
    I2CLCD × Nat × List Ev :=
  let lcd' := { lcd with backlight := false }
  let (k1, t1) := expanderWrite bus k lcd' 0x00
  (lcd', k1, t1)

/-- Method `Init`: 50 ms power-on wait; `sendCommand 0x03` three times with
5 ms, 5 ms, 1 ms waits; `sendCommand 0x02`; then function set (with 2-line
bit if `rows > 1`), display control, entry mode, clear display with a 2 ms
wait; finally `Backlight`. -/
def Init (bus : Bus) (k : Nat) (lcd : I2CLCD) :
    I2CLCD × Nat × List Ev :=
  let (k1, t1) := sendCommand bus k lcd 0x03
  let (k2, t2) := sendCommand bus k1 lcd 0x03
  let (k3, t3) := sendCommand bus k2 lcd 0x03
  let (k4, t4) := sendCommand bus k3 lcd 0x02
  let functionSet :=
    if lcd.rows > 1 then (LCD_FUNCTIONSET ||| 0x20) ||| 0x08
    else LCD_FUNCTIONSET ||| 0x20
  let (k5, t5) := sendCommand bus k4 lcd functionSet
  let (k6, t6) := sendCommand bus k5 lcd (LCD_DISPLAYCONTROL ||| LCD_DISPLAYON)
  let (k7, t7) := sendCommand bus k6 lcd (LCD_ENTRYMODESET ||| LCD_ENTRYLEFT)
  let (k8, t8) := sendCommand bus k7 lcd LCD_CLEARDISPLAY
  let (lcd9, k9, t9) := Backlight bus k8 lcd
  (lcd9, k9,
    [Ev.sleep 50] ++ t1 ++ [Ev.sleep 5] ++ t2 ++ [Ev.sleep 5] ++ t3 ++
      [Ev.sleep 1] ++ t4 ++ t5 ++ t6 ++ t7 ++ t8 ++ [Ev.sleep 2] ++ t9)

/-- Method `Clear`: send the clear-display command, sleep 2 ms. -/
def Clear (bus : Bus) (k : Nat) (lcd : I2CLCD) :
    I2CLCD × Nat × List Ev :=
  let (k1, t1) := sendCommand bus k lcd LCD_CLEARDISPLAY
  (lcd, k1, t1 ++ [Ev.sleep 2])

/-- Method `Home`: send the return-home command, sleep 2 ms. -/
def Home (bus : Bus) (k : Nat) (lcd : I2CLCD) :
    I2CLCD × Nat × List Ev :=
  let (k1, t1) := sendCommand bus k lcd LCD_RETURNHOME
  (lcd, k1, t1 ++ [Ev.sleep 2])

/-- Loop body of `Print`: for each code point of the text, send
`byte(char)` — the code point truncated to its low 8 bits — as data. -/
def printLoop (bus : Bus) (lcd : I2CLCD) : Nat → List Nat → Nat × List Ev
  | k, [] => (k, [])
  | k, c :: rest =>
    let (k1, t1) := sendData bus k lcd (c % 256)
    let (k2, t2) := printLoop bus lcd k1 rest
    (k2, t1 ++ t2)

/-- Method `Print`: text is a sequence of Unicode code points (Go `range`
over a string yields runes); each is sent as one data byte. -/
def Print (bus : Bus) (k : Nat) (lcd : I2CLCD) (text : List Nat) :
    I2CLCD × Nat × List Ev :=
  let (k1, t1) := printLoop bus lcd k text
  (lcd, k1, t1)

/-- Method `SetCursor`: clamp the row to `rows - 1` (in `uint8` arithmetic,
so `rows = 0` underflows to 255) when `row >= rows`; the DDRAM address is
`col + row*0x40` in `uint8` arithmetic; send it ORed with the
set-DDRAM-address command bit. -/
def SetCursor (bus : Bus) (k : Nat) (lcd : I2CLCD) (col row : Nat) :
    I2CLCD × Nat × List Ev :=
  let row' := if row ≥ lcd.rows then (lcd.rows + 255) % 256 else row
  let addr := (col + (row' * 0x40) % 256) % 256
  let (k1, t1) := sendCommand bus k lcd (LCD_SETDDRAMADDR ||| addr)
  (lcd, k1, t1)

/-- Method `DisplayOn`: set the display flag, send display-control with the
display-on bit. -/
def DisplayOn (bus : Bus) (k : Nat) (lcd : I2CLCD) :
    I2CLCD × Nat × List Ev :=
  let lcd' := { lcd with display := true }
  let (k1, t1) := sendCommand bus k lcd' (LCD_DISPLAYCONTROL ||| LCD_DISPLAYON)
  (lcd', k1, t1)

/-- Method `DisplayOff`: clear the display flag, send display-control with
the display-off bit. -/
def DisplayOff (bus : Bus) (k : Nat) (lcd : I2CLCD) :
    I2CLCD × Nat × List Ev :=
  let lcd' := { lcd with display := false }
  let (k1, t1) := sendCommand bus k lcd' (LCD_DISPLAYCONTROL ||| LCD_DISPLAYOFF)
  (lcd', k1, t1)

/-- Method `CursorOn`: set the cursor flag, send display-control with
hard-coded display-on and cursor-on bits. -/
def CursorOn (bus : Bus) (k : Nat) (lcd : I2CLCD) :
    I2CLCD × Nat × List Ev :=
  let lcd' := { lcd with cursor := true }
  let (k1, t1) :=
    sendCommand bus k lcd' (LCD_DISPLAYCONTROL ||| LCD_DISPLAYON ||| LCD_CURSORON)
  (lcd', k1, t1)

/-- Method `CursorOff`: clear the cursor flag, send display-control with
hard-coded display-on and cursor-off bits. -/
def CursorOff (bus : Bus) (k : Nat) (lcd : I2CLCD) :
    I2CLCD × Nat × List Ev :=
  let lcd' := { lcd with cursor := false }
  let (k1, t1) :=
    sendCommand bus k lcd' (LCD_DISPLAYCONTROL ||| LCD_DISPLAYON ||| LCD_CURSOROFF)
  (lcd', k1, t1)

/-- Method `BlinkOn`: set the blink flag, send display-control with
hard-coded display-on and blink-on bits. -/
def BlinkOn (bus : Bus) (k : Nat) (lcd : I2CLCD) :
    I2CLCD × Nat × List Ev :=
  let lcd' := { lcd with blink := true }
  let (k1, t1) :=
    sendCommand bus k lcd' (LCD_DISPLAYCONTROL ||| LCD_DISPLAYON ||| LCD_BLINKON)
  (lcd', k1, t1)

/-- Method `BlinkOff`: clear the blink flag, send display-control with
hard-coded display-on and blink-off bits. -/
def BlinkOff (bus : Bus) (k : Nat) (lcd : I2CLCD) :
    I2CLCD × Nat × List Ev :=
  let lcd' := { lcd with blink := false }
  let (k1, t1) :=
    sendCommand bus k lcd' (LCD_DISPLAYCONTROL ||| LCD_DISPLAYON ||| LCD_BLINKOFF)
  (lcd', k1, t1)

/-- Loop body of `CreateChar`: `for i := 0; i < 8; i++` sends
`charmap[i]` as data; indexing past the end of the glyph is a runtime
out-of-bounds failure (Go panic), modelled by the boolean component
turning false and the loop stopping there. -/
def createCharLoop (bus : Bus) (lcd : I2CLCD) (charmap : List Nat) :
    Nat → List Nat → Nat × List Ev × Bool
  | k, [] => (k, [], true)
  | k, i :: is =>
    if h : i < charmap.length then
      let (k1, t1) := sendData bus k lcd charmap[i]
      let (k2, t2, ok) := createCharLoop bus lcd charmap k1 is
      (k2, t1 ++ t2, ok)
    else (k, [], false)

/-- Method `CreateChar`: mask the location to 3 bits (`location &= 0x07`),
send the set-CGRAM-address command with address `location << 3`, then send
`charmap[0] .. charmap[7]` as data.  The boolean component records whether
the loop completed without an out-of-bounds failure. -/
def CreateChar (bus : Bus) (k : Nat) (lcd : I2CLCD)
    (location : Nat) (charmap : List Nat) :
    I2CLCD × Nat × List Ev × Bool :=
  let location := location &&& 0x07
  let (k1, t1) := sendCommand bus k lcd (LCD_SETCGRAMADDR ||| (location <<< 3))
  let (k2, t2, ok) := createCharLoop bus lcd charmap k1 (List.range 8)
  (lcd, k2, t1 ++ t2, ok)

/-- Method `ScrollDisplayLeft`. -/
def ScrollDisplayLeft (bus : Bus) (k : Nat) (lcd : I2CLCD) :
    I2CLCD × Nat × List Ev :=
  let (k1, t1) := sendCommand bus k lcd LCD_SCROLLLEFT
  (lcd, k1, t1)

/-- Method `ScrollDisplayRight`. -/
def ScrollDisplayRight (bus : Bus) (k : Nat) (lcd : I2CLCD) :
    I2CLCD × Nat × List Ev :=
  let (k1, t1) := sendCommand bus k lcd LCD_SCROLLRIGHT
  (lcd, k1, t1)

/-- Method `LeftToRight`. -/
def LeftToRight (bus : Bus) (k : Nat) (lcd : I2CLCD) :
    I2CLCD × Nat × List Ev :=
  let (k1, t1) := sendCommand bus k lcd (LCD_ENTRYMODESET ||| LCD_ENTRYLEFT)
  (lcd, k1, t1)

/-- Method `RightToLeft`. -/
def RightToLeft (bus : Bus) (k : Nat) (lcd : I2CLCD) :
    I2CLCD × Nat × List Ev :=
  let (k1, t1) := sendCommand bus k lcd (LCD_ENTRYMODESET ||| LCD_ENTRYRIGHT)
  (lcd, k1, t1)

/-- Method `ShiftIncrement`. -/
def ShiftIncrement (bus : Bus) (k : Nat) (lcd : I2CLCD) :
    I2CLCD × Nat × List Ev :=
  let (k1, t1) := sendCommand bus k lcd (LCD_ENTRYMODESET ||| LCD_ENTRYSHIFTINCREMENT)
  (lcd, k1, t1)

/-- Method `ShiftDecrement`. -/
def ShiftDecrement (bus : Bus) (k : Nat) (lcd : I2CLCD) :
    I2CLCD × Nat × List Ev :=
  let (k1, t1) := sendCommand bus k lcd (LCD_ENTRYMODESET ||| LCD_ENTRYSHIFTDECREMENT)
  (lcd, k1, t1)

/-- Method `Autoscroll` (alias of `ShiftIncrement`). -/
def Autoscroll (bus : Bus) (k : Nat) (lcd : I2CLCD) :
    I2CLCD × Nat × List Ev :=
  let (k1, t1) := sendCommand bus k lcd (LCD_ENTRYMODESET ||| LCD_ENTRYSHIFTINCREMENT)
  (lcd, k1, t1)

/-- Method `NoAutoscroll` (alias of `ShiftDecrement`). -/
def NoAutoscroll (bus : Bus) (k : Nat) (lcd : I2CLCD) :
    I2CLCD × Nat × List Ev :=
  let (k1, t1) := sendCommand bus k lcd (LCD_ENTRYMODESET ||| LCD_ENTRYSHIFTDECREMENT)
  (lcd, k1, t1)

/-- Enumeration of the public operations of the driver, with their
arguments, used to state properties quantified over every operation. -/
inductive Op where
  | init
  | clear
  | home
  | print (text : List Nat)
  | setCursor (col row : Nat)
  | displayOn
  | displayOff
  | cursorOn
  | cursorOff
  | blinkOn
  | blinkOff
  | backlight
  | noBacklight
  | createChar (location : Nat) (charmap : List Nat)
  | scrollDisplayLeft
  | scrollDisplayRight
  | leftToRight
  | rightToLeft
  | shiftIncrement
  | shiftDecrement
  | autoscroll
  | noAutoscroll
deriving DecidableEq, Repr

/-- Adjoin the "completed without runtime failure" flag (always true) to the
result of an operation that cannot fail at runtime. -/
def withOk (r : I2CLCD × Nat × List Ev) : I2CLCD × Nat × List Ev × Bool :=
  (r.1, r.2.1, r.2.2, true)

/-- Run one public operation: resulting session state, bus-call counter,
event trace, and whether the operation completed without a runtime
(out-of-bounds) failure. -/
def runOp (bus : Bus) (k : Nat) (lcd : I2CLCD) :
    Op → I2CLCD × Nat × List Ev × Bool
  | .init => withOk (Init bus k lcd)
  | .clear => withOk (Clear bus k lcd)
  | .home => withOk (Home bus k lcd)
  | .print text => withOk (Print bus k lcd text)
  | .setCursor col row => withOk (SetCursor bus k lcd col row)
  | .displayOn => withOk (DisplayOn bus k lcd)
  | .displayOff => withOk (DisplayOff bus k lcd)
  | .cursorOn => withOk (CursorOn bus k lcd)
  | .cursorOff => withOk (CursorOff bus k lcd)
  | .blinkOn => withOk (BlinkOn bus k lcd)
  | .blinkOff => withOk (BlinkOff bus k lcd)
  | .backlight => withOk (Backlight bus k lcd)
  | .noBacklight => withOk (NoBacklight bus k lcd)
  | .createChar location charmap => CreateChar bus k lcd location charmap
  | .scrollDisplayLeft => withOk (ScrollDisplayLeft bus k lcd)
  | .scrollDisplayRight => withOk (ScrollDisplayRight bus k lcd)
  | .leftToRight => withOk (LeftToRight bus k lcd)
  | .rightToLeft => withOk (RightToLeft bus k lcd)
  | .shiftIncrement => withOk (ShiftIncrement bus k lcd)
  | .shiftDecrement => withOk (ShiftDecrement bus k lcd)
  | .autoscroll => withOk (Autoscroll bus k lcd)
  | .noAutoscroll => withOk (NoAutoscroll bus k lcd)

/-- Event trace of one public operation. -/
def opTrace (bus : Bus) (k : Nat) (lcd : I2CLCD) (op : Op) : List Ev :=
  (runOp bus k lcd op).2.2.1

/-- Resulting session state of one public operation. -/
def opState (bus : Bus) (k : Nat) (lcd : I2CLCD) (op : Op) : I2CLCD :=
  (runOp bus k lcd op).1

/-- Whether one public operation ran to completion without a runtime
out-of-bounds failure. -/
def opOk (bus : Bus) (k : Nat) (lcd : I2CLCD) (op : Op) : Bool :=
  (runOp bus k lcd op).2.2.2

/-- The bytes written to the expander in a trace, in order. -/
def writesOf (t : List Ev) : List Nat :=
  t.filterMap fun ev =>
    match ev with
    | .write b _ => some b
    | .sleep _ => none

/-- A write event is well-formed when bit 0x08 of the written byte equals
the backlight flag held at the moment of the write; sleeps are always
well-formed. -/
def evOk : Ev → Bool
  | .write b bl => b.testBit 3 == bl
  | .sleep _ => true

/-- Trace of one full two-nibble byte transfer (what `send` emits), as a
function of the session state and the value and mode sent.  The trace does
not depend on the bus oracle or the call counter. -/
def byteTrace (lcd : I2CLCD) (value mode : Nat) : List Ev :=
  (send busOk 0 lcd value mode).2

/-- One nibble transfer as the code actually performs it, described from
the wire's point of view: the nibble-with-mode pattern `p` written with
enable low, then with enable high, a 1 ms settle, then with enable low
again, a 1 ms settle — each byte carrying the persisted backlight bit. -/
def nibbleClaimTrace (bl : Bool) (p : Nat) : List Ev :=
  let blBits : Nat := if bl then LCD_BACKLIGHT else 0x00
  [Ev.write ((p ||| blBits) % 256) bl,
   Ev.write ((p ||| 0x04 ||| blBits) % 256) bl,
   Ev.sleep 1,
   Ev.write ((p ||| blBits) % 256) bl,
   Ev.sleep 1]

/-- Every event of the trace is well-formed. -/
def allOk (t : List Ev) : Prop := ∀ ev ∈ t, evOk ev = true

/-- The steady-state operations: every public operation except `Init`,
`Clear` and `Home`. -/
def steadyState : Op → Bool
  | .init => false
  | .clear => false
  | .home => false
  | _ => true

/-- A trace performs no delay beyond the per-nibble 1 ms enable-edge
settle. -/
def onlyNibbleSettle (t : List Ev) : Prop :=
  ∀ ms, Ev.sleep ms ∈ t → ms = 1

/-! ## Shared helper lemmas -/

/-- The trace of `send` does not depend on the bus oracle or the call
counter: it equals `byteTrace`. -/
theorem send_trace (bus : Bus) (k : Nat) (lcd : I2CLCD) (v m : Nat) :
    (send bus k lcd v m).2 = byteTrace lcd v m := rfl

set_option maxRecDepth 8192

/-- Masking with 7 is reduction mod 8, on byte-sized inputs. -/
theorem land_seven_eq_mod_eight : ∀ l < 256, l &&& 7 = l % 8 := by
  decide

/-! ## Claim C1 -/

/-- C1 counterexample: sending the byte 0x53 as a command produces six
expander writes, not four — `write4Bits` performs a plain write of the
nibble before pulsing the enable line, so each nibble costs three writes. -/
theorem send_four_writes_refuted :
    (writesOf (send busOk 0 (NewI2CLCD 0x27 16 2) 0x53 0).2).length ≠ 4 := by
  decide

/-- C1 (amended): for every byte value `v` and mode bit `m`, sending the
byte produces exactly six expander writes, in order: high-nibble pattern
with enable low, with enable high, with enable low again, then the same
three writes for the low nibble, where the patterns are `(v & 0xF0) | m`
followed by `((v << 4) & 0xF0) | m`, each ORed with the currently persisted
backlight bit, and with a 1 ms settle after each enable edge. -/
theorem send_six_writes (bus : Bus) (k : Nat) (lcd : I2CLCD) :
    ∀ v < 256, ∀ m < 2,
      (send bus k lcd v m).2 =
        nibbleClaimTrace lcd.backlight ((v &&& 0xF0) ||| m) ++
          nibbleClaimTrace lcd.backlight (((v <<< 4) &&& 0xF0) ||| m) := by
  have core :
      ∀ bl : Bool, ∀ v < 256, ∀ m < 2,
        (send busOk 0 ⟨0, 0, 0, bl, true, false, false⟩ v m).2 =
          nibbleClaimTrace bl ((v &&& 0xF0) ||| m) ++
            nibbleClaimTrace bl (((v <<< 4) &&& 0xF0) ||| m) := by
    decide
  intro v hv m hm
  have h := core lcd.backlight v hv m hm
  exact h

/-- C1 witness: the amended send theorem applied at byte 0x53, command
mode, on a fresh session. -/
theorem send_six_writes_witness :
    (0x53 : Nat) < 256 ∧ (0 : Nat) < 2 ∧
      (send busOk 0 (NewI2CLCD 0x27 16 2) 0x53 0).2 =
        nibbleClaimTrace (NewI2CLCD 0x27 16 2).backlight ((0x53 &&& 0xF0) ||| 0) ++
          nibbleClaimTrace (NewI2CLCD 0x27 16 2).backlight
            (((0x53 <<< 4) &&& 0xF0) ||| 0) :=
  ⟨by decide, by decide,
    send_six_writes busOk 0 (NewI2CLCD 0x27 16 2) 0x53 (by decide) 0 (by decide)⟩

/-! ## Claim C2 -/

/-- C2 (code bug exhibit): after `DisplayOn()` then `CursorOn()` — which
leaves the session's cursor flag true — `BlinkOff()` transmits the
display-control byte `LCD_DISPLAYCONTROL | LCD_DISPLAYON | LCD_BLINKOFF`
= 0x0C, and not `LCD_DISPLAYCONTROL | LCD_DISPLAYON | LCD_CURSORON |
LCD_BLINKOFF` = 0x0E: the cursor bit set by the earlier call is dropped,
because the flag-toggle methods hard-code their bit patterns and never
read the persisted `display`/`cursor`/`blink` booleans they update. -/
theorem blinkOff_drops_cursor_bit :
    ((CursorOn busOk 0 (DisplayOn busOk 0 (NewI2CLCD 0x27 16 2)).1).1.cursor
        = true) ∧
    ((BlinkOff busOk 0
        (CursorOn busOk 0 (DisplayOn busOk 0 (NewI2CLCD 0x27 16 2)).1).1).2.2 =
      byteTrace (NewI2CLCD 0x27 16 2)
        (LCD_DISPLAYCONTROL ||| LCD_DISPLAYON ||| LCD_BLINKOFF) 0) ∧
    ((BlinkOff busOk 0
        (CursorOn busOk 0 (DisplayOn busOk 0 (NewI2CLCD 0x27 16 2)).1).1).2.2 ≠
      byteTrace (NewI2CLCD 0x27 16 2)
        (LCD_DISPLAYCONTROL ||| LCD_DISPLAYON ||| LCD_CURSORON ||| LCD_BLINKOFF) 0) := by
  decide

/-! ## Claim C3 -/

/-- The counter-and-trace result of `sendCommand` in closed form. -/
theorem sendCommand_eq (bus : Bus) (k : Nat) (lcd : I2CLCD) (cmd : Nat) :
    sendCommand bus k lcd cmd = (k + 6, byteTrace lcd cmd 0) := rfl

/-- The counter-and-trace result of `sendData` in closed form. -/
theorem sendData_eq (bus : Bus) (k : Nat) (lcd : I2CLCD) (d : Nat) :
    sendData bus k lcd d = (k + 6, byteTrace lcd d 1) := rfl

/-- The print loop ignores the results of its bus transactions. -/
theorem printLoop_bus_irrel (bus bus' : Bus) (lcd : I2CLCD) :
    ∀ text k, printLoop bus lcd k text = printLoop bus' lcd k text := by
  intro text
  induction text with
  | nil => intro k; rfl
  | cons c rest ih => intro k; simp [printLoop, sendData_eq, ih]

/-- The glyph-row loop of `CreateChar` ignores the results of its bus
transactions. -/
theorem createCharLoop_bus_irrel (bus bus' : Bus) (lcd : I2CLCD)
    (charmap : List Nat) :
    ∀ is k, createCharLoop bus lcd charmap k is
      = createCharLoop bus' lcd charmap k is := by
  intro is
  induction is with
  | nil => intro k; rfl
  | cons i rest ih =>
    intro k
    by_cases h : i < charmap.length
    · simp [createCharLoop, h, sendData_eq, ih]
    · simp [createCharLoop, h]

/-- C3 (amended): the result a caller observes from any public operation —
resulting session state, bus-call counter, event trace, runtime-failure
flag — is identical no matter which underlying bus writes fail: the Go
source discards the error returned by `bus.Tx`, so a transport error never
surfaces, is never retried, and never alters behaviour; in particular the
session neither crashes nor hangs and any subsequent operation attempts
its own writes exactly as it would after a fully successful one. -/
theorem transport_result_ignored (bus bus' : Bus) (k : Nat) (lcd : I2CLCD)
    (op : Op) : runOp bus k lcd op = runOp bus' k lcd op := by
  cases op with
  | print text => simp [runOp, withOk, Print, printLoop_bus_irrel bus bus']
  | createChar location charmap =>
    simp [runOp, CreateChar, sendCommand_eq,
      createCharLoop_bus_irrel bus bus']
  | _ => rfl

/-- C3 counterexample: running `Clear()` on a bus where every single write
fails yields exactly the same caller-observable result as on a bus where
every write succeeds — the transport failure does not surface to the
caller of the operation. -/
theorem transport_failure_invisible :
    runOp busFail 0 (NewI2CLCD 0x27 16 2) Op.clear =
      runOp busOk 0 (NewI2CLCD 0x27 16 2) Op.clear := rfl

/-! ## Claim C4 -/

/-- C4 counterexample: the first expander write of `Init` (after the
power-on sleep) carries 0x08 — the high nibble of the full byte 0x03,
namely 0x0, with the backlight bit — and not the reset nibble 0x3 on the
data lines (which would give 0x38, or 0x3C with the enable bit): the three
reset steps and the 0x2 step are full two-nibble byte sends through
`sendCommand`, not single-nibble writes. -/
theorem init_first_write_refutes_single_nibble :
    (writesOf (Init busOk 0 (NewI2CLCD 0x27 16 2)).2.2).head? = some 0x08 ∧
    (0x08 : Nat) ∉ ([0x38, 0x3C] : List Nat) := by
  decide

/-- C4 (amended): `Init` issues, in order: the byte 0x03 three times and
the byte 0x02 once — each of these four steps a full two-nibble byte send
(the controller sees nibble 0x0 first, then 0x3 resp. 0x2) — then
function-set (0x28 in 2-line mode, else 0x20), display-control 0x0C,
entry-mode 0x06 and clear-display 0x01 as byte sends, with delays of 50 ms
before the sequence, 5 ms, 5 ms, 1 ms after the three 0x03 sends and 2 ms
after clear, and finally one backlight refresh write. -/
theorem init_write_order (bus : Bus) (k : Nat) (lcd : I2CLCD) :
    (Init bus k lcd).2.2 =
      [Ev.sleep 50] ++ byteTrace lcd 0x03 0 ++ [Ev.sleep 5] ++
        byteTrace lcd 0x03 0 ++ [Ev.sleep 5] ++ byteTrace lcd 0x03 0 ++
        [Ev.sleep 1] ++ byteTrace lcd 0x02 0 ++
        byteTrace lcd (if lcd.rows > 1 then 0x28 else 0x20) 0 ++
        byteTrace lcd 0x0C 0 ++ byteTrace lcd 0x06 0 ++
        byteTrace lcd 0x01 0 ++ [Ev.sleep 2] ++
        [Ev.write 0x08 true] := by
  simp only [Init, Backlight, sendCommand_eq, expanderWrite,
    show (LCD_FUNCTIONSET ||| 0x20) ||| 0x08 = 0x28 from by decide,
    show LCD_FUNCTIONSET ||| 0x20 = 0x20 from by decide,
    show LCD_DISPLAYCONTROL ||| LCD_DISPLAYON = 0x0C from by decide,
    show LCD_ENTRYMODESET ||| LCD_ENTRYLEFT = 0x06 from by decide,
    show LCD_CLEARDISPLAY = 0x01 from by decide,
    show LCD_BACKLIGHT = 0x08 from by decide,
    show ((0x00 ||| 0x08 : Nat)) % 256 = 0x08 from by decide]
  simp

/-! ## Claim C5 -/

/-- Bit 3 survives truncation to a byte. -/
theorem testBit3_mod256 (x : Nat) : (x % 256).testBit 3 = x.testBit 3 := by
  have h : (256 : Nat) = 2 ^ 8 := by norm_num
  rw [h, Nat.testBit_mod_two_pow]
  simp

/-- Well-formedness distributes over append. -/
theorem allOk_append {t1 t2 : List Ev} (h1 : allOk t1) (h2 : allOk t2) :
    allOk (t1 ++ t2) := by
  intro ev hev
  rcases List.mem_append.mp hev with h | h
  exacts [h1 ev h, h2 ev h]

/-- The result of `expanderWrite` in closed form. -/
theorem expanderWrite_eq (bus : Bus) (k : Nat) (lcd : I2CLCD) (d : Nat) :
    expanderWrite bus k lcd d =
      (k + 1,
        [Ev.write ((d ||| if lcd.backlight then LCD_BACKLIGHT else 0x00) % 256)
          lcd.backlight]) := rfl

/-- The single write of `expanderWrite` carries bit 0x08 exactly when the
backlight flag holds, provided the data byte itself has bit 3 clear. -/
theorem write_evOk (lcd : I2CLCD) (d : Nat) (hd : d.testBit 3 = false) :
    evOk (Ev.write
      ((d ||| if lcd.backlight then LCD_BACKLIGHT else 0x00) % 256)
      lcd.backlight) = true := by
  cases hb : lcd.backlight <;>
    simp [evOk, LCD_BACKLIGHT, testBit3_mod256, Nat.testBit_lor, hd,
      show Nat.testBit 8 3 = true from by decide,
      show Nat.testBit 0 3 = false from by decide]

/-- Trace well-formedness for `expanderWrite`. -/
theorem expanderWrite_allOk (bus : Bus) (k : Nat) (lcd : I2CLCD) (d : Nat)
    (hd : d.testBit 3 = false) : allOk (expanderWrite bus k lcd d).2 := by
  intro ev hev
  have he : ev = Ev.write
      ((d ||| if lcd.backlight then LCD_BACKLIGHT else 0x00) % 256)
      lcd.backlight := by
    simpa [expanderWrite_eq] using hev
  rw [he]
  exact write_evOk lcd d hd

/-- ORing the enable bit keeps bit 3 clear. -/
theorem enable_high_bit3 (d : Nat) (hd : d.testBit 3 = false) :
    (d ||| 0x04).testBit 3 = false := by
  simp [Nat.testBit_lor, hd, show Nat.testBit 4 3 = false from by decide]

/-- Clearing the enable bit keeps bit 3 clear. -/
theorem enable_low_bit3 (d : Nat) (hd : d.testBit 3 = false) :
    (d &&& 0xFB).testBit 3 = false := by
  simp [Nat.testBit_land, hd]

/-- A nibble pattern ORed with a mode whose bit 3 is clear has bit 3
clear. -/
theorem nibble_mode_bit3 (v m : Nat) (hm : m.testBit 3 = false) :
    ((v &&& 0xF0) ||| m).testBit 3 = false := by
  simp [Nat.testBit_lor, Nat.testBit_land, hm,
    show Nat.testBit 0xF0 3 = false from by decide]

/-- Sleeps are always well-formed. -/
theorem allOk_sleep (ms : Nat) : allOk [Ev.sleep ms] := by
  intro ev hev
  simp at hev
  rw [hev]
  rfl

/-- Trace well-formedness for `pulseEnable`. -/
theorem pulseEnable_allOk (bus : Bus) (k : Nat) (lcd : I2CLCD) (d : Nat)
    (hd : d.testBit 3 = false) : allOk (pulseEnable bus k lcd d).2 := by
  have h : (pulseEnable bus k lcd d).2 =
      (expanderWrite bus k lcd (d ||| 0x04)).2 ++ [Ev.sleep 1] ++
        (expanderWrite bus (k + 1) lcd (d &&& 0xFB)).2 ++ [Ev.sleep 1] := rfl
  rw [h]
  exact allOk_append (allOk_append (allOk_append
    (expanderWrite_allOk bus k lcd (d ||| 0x04) (enable_high_bit3 d hd))
    (allOk_sleep 1))
    (expanderWrite_allOk bus (k + 1) lcd (d &&& 0xFB) (enable_low_bit3 d hd)))
    (allOk_sleep 1)

/-- Trace well-formedness for `write4Bits`. -/
theorem write4Bits_allOk (bus : Bus) (k : Nat) (lcd : I2CLCD) (d : Nat)
    (hd : d.testBit 3 = false) : allOk (write4Bits bus k lcd d).2 := by
  have h : (write4Bits bus k lcd d).2 =
      (expanderWrite bus k lcd d).2 ++ (pulseEnable bus (k + 1) lcd d).2 := rfl
  rw [h]
  exact allOk_append (expanderWrite_allOk bus k lcd d hd)
    (pulseEnable_allOk bus (k + 1) lcd d hd)

/-- Trace well-formedness for `send`, for any mode with bit 3 clear. -/
theorem send_allOk (bus : Bus) (k : Nat) (lcd : I2CLCD) (v m : Nat)
    (hm : m.testBit 3 = false) : allOk (send bus k lcd v m).2 := by
  have h : (send bus k lcd v m).2 =
      (write4Bits bus k lcd ((v &&& 0xF0) ||| m)).2 ++
        (write4Bits bus (k + 3) lcd (((v <<< 4) &&& 0xF0) ||| m)).2 := rfl
  rw [h]
  exact allOk_append
    (write4Bits_allOk bus k lcd _ (nibble_mode_bit3 v m hm))
    (write4Bits_allOk bus (k + 3) lcd _ (nibble_mode_bit3 (v <<< 4) m hm))

/-- Trace well-formedness for `byteTrace` in command or data mode. -/
theorem byteTrace_allOk (lcd : I2CLCD) (v m : Nat) (hm : m.testBit 3 = false) :
    allOk (byteTrace lcd v m) :=
  send_allOk busOk 0 lcd v m hm

/-- Trace well-formedness for the print loop. -/
theorem printLoop_allOk (bus : Bus) (lcd : I2CLCD) :
    ∀ text k, allOk (printLoop bus lcd k text).2 := by
  intro text
  induction text with
  | nil => intro k ev hev; simp [printLoop] at hev
  | cons c rest ih =>
    intro k
    have h : (printLoop bus lcd k (c :: rest)).2 =
        (sendData bus k lcd (c % 256)).2 ++
          (printLoop bus lcd (k + 6) rest).2 := rfl
    rw [h]
    exact allOk_append
      (send_allOk bus k lcd (c % 256) 1 (by decide)) (ih (k + 6))

/-- Trace well-formedness for the glyph-row loop of `CreateChar`. -/
theorem createCharLoop_allOk (bus : Bus) (lcd : I2CLCD) (g : List Nat) :
    ∀ is k, allOk (createCharLoop bus lcd g k is).2.1 := by
  intro is
  induction is with
  | nil => intro k ev hev; simp [createCharLoop] at hev
  | cons i rest ih =>
    intro k
    by_cases h : i < g.length
    · have ht : (createCharLoop bus lcd g k (i :: rest)).2.1 =
          (sendData bus k lcd g[i]).2 ++
            (createCharLoop bus lcd g (k + 6) rest).2.1 := by
        simp [createCharLoop, h, sendData_eq]
      rw [ht]
      exact allOk_append
        (send_allOk bus k lcd g[i] 1 (by decide)) (ih (k + 6))
    · intro ev hev
      simp [createCharLoop, h] at hev

/-- C5: every byte written to the expander bus, by every public operation —
including operations unrelated to the backlight — has bit 0x08 set exactly
when the backlight flag persisted at the moment of that write is true. -/
theorem every_write_carries_backlight_bit (bus : Bus) (k : Nat)
    (lcd : I2CLCD) (op : Op) :
    ∀ b bl, Ev.write b bl ∈ opTrace bus k lcd op → b.testBit 3 = bl := by
  have key : allOk (opTrace bus k lcd op) := by
    cases op with
    | init =>
      have p1 := allOk_append (allOk_sleep 50)
        (send_allOk bus k lcd 0x03 0 (by decide))
      have p2 := allOk_append p1 (allOk_sleep 5)
      have p3 := allOk_append p2
        (send_allOk bus (k + 6) lcd 0x03 0 (by decide))
      have p4 := allOk_append p3 (allOk_sleep 5)
      have p5 := allOk_append p4
        (send_allOk bus (k + 12) lcd 0x03 0 (by decide))
      have p6 := allOk_append p5 (allOk_sleep 1)
      have p7 := allOk_append p6
        (send_allOk bus (k + 18) lcd 0x02 0 (by decide))
      have p8 := allOk_append p7
        (send_allOk bus (k + 24) lcd
          (if lcd.rows > 1 then (LCD_FUNCTIONSET ||| 0x20) ||| 0x08
           else LCD_FUNCTIONSET ||| 0x20) 0 (by decide))
      have p9 := allOk_append p8
        (send_allOk bus (k + 30) lcd
          (LCD_DISPLAYCONTROL ||| LCD_DISPLAYON) 0 (by decide))
      have p10 := allOk_append p9
        (send_allOk bus (k + 36) lcd
          (LCD_ENTRYMODESET ||| LCD_ENTRYLEFT) 0 (by decide))
      have p11 := allOk_append p10
        (send_allOk bus (k + 42) lcd LCD_CLEARDISPLAY 0 (by decide))
      have p12 := allOk_append p11 (allOk_sleep 2)
      have p13 := allOk_append p12
        (expanderWrite_allOk bus (k + 48) { lcd with backlight := true }
          0x00 (by decide))
      exact p13
    | clear =>
      have h : opTrace bus k lcd .clear =
          (send bus k lcd LCD_CLEARDISPLAY 0).2 ++ [Ev.sleep 2] := rfl
      rw [h]
      exact allOk_append (send_allOk bus k lcd LCD_CLEARDISPLAY 0 (by decide))
        (allOk_sleep 2)
    | home =>
      have h : opTrace bus k lcd .home =
          (send bus k lcd LCD_RETURNHOME 0).2 ++ [Ev.sleep 2] := rfl
      rw [h]
      exact allOk_append (send_allOk bus k lcd LCD_RETURNHOME 0 (by decide))
        (allOk_sleep 2)
    | print text => exact printLoop_allOk bus lcd text k
    | setCursor col row =>
      exact send_allOk bus k lcd
        (LCD_SETDDRAMADDR |||
          ((col + ((if row ≥ lcd.rows then (lcd.rows + 255) % 256 else row)
            * 0x40) % 256) % 256)) 0 (by decide)
    | displayOn =>
      exact send_allOk bus k { lcd with display := true }
        (LCD_DISPLAYCONTROL ||| LCD_DISPLAYON) 0 (by decide)
    | displayOff =>
      exact send_allOk bus k { lcd with display := false }
        (LCD_DISPLAYCONTROL ||| LCD_DISPLAYOFF) 0 (by decide)
    | cursorOn =>
      exact send_allOk bus k { lcd with cursor := true }
        (LCD_DISPLAYCONTROL ||| LCD_DISPLAYON ||| LCD_CURSORON) 0 (by decide)
    | cursorOff =>
      exact send_allOk bus k { lcd with cursor := false }
        (LCD_DISPLAYCONTROL ||| LCD_DISPLAYON ||| LCD_CURSOROFF) 0 (by decide)
    | blinkOn =>
      exact send_allOk bus k { lcd with blink := true }
        (LCD_DISPLAYCONTROL ||| LCD_DISPLAYON ||| LCD_BLINKON) 0 (by decide)
    | blinkOff =>
      exact send_allOk bus k { lcd with blink := false }
        (LCD_DISPLAYCONTROL ||| LCD_DISPLAYON ||| LCD_BLINKOFF) 0 (by decide)
    | backlight =>
      exact expanderWrite_allOk bus k { lcd with backlight := true }
        0x00 (by decide)
    | noBacklight =>
      exact expanderWrite_allOk bus k { lcd with backlight := false }
        0x00 (by decide)
    | createChar location charmap =>
      exact allOk_append
        (send_allOk bus k lcd
          (LCD_SETCGRAMADDR ||| ((location &&& 0x07) <<< 3)) 0 (by decide))
        (createCharLoop_allOk bus lcd charmap (List.range 8) (k + 6))
    | scrollDisplayLeft =>
      exact send_allOk bus k lcd LCD_SCROLLLEFT 0 (by decide)
    | scrollDisplayRight =>
      exact send_allOk bus k lcd LCD_SCROLLRIGHT 0 (by decide)
    | leftToRight =>
      exact send_allOk bus k lcd (LCD_ENTRYMODESET ||| LCD_ENTRYLEFT) 0
        (by decide)
    | rightToLeft =>
      exact send_allOk bus k lcd (LCD_ENTRYMODESET ||| LCD_ENTRYRIGHT) 0
        (by decide)
    | shiftIncrement =>
      exact send_allOk bus k lcd
        (LCD_ENTRYMODESET ||| LCD_ENTRYSHIFTINCREMENT) 0 (by decide)
    | shiftDecrement =>
      exact send_allOk bus k lcd
        (LCD_ENTRYMODESET ||| LCD_ENTRYSHIFTDECREMENT) 0 (by decide)
    | autoscroll =>
      exact send_allOk bus k lcd
        (LCD_ENTRYMODESET ||| LCD_ENTRYSHIFTINCREMENT) 0 (by decide)
    | noAutoscroll =>
      exact send_allOk bus k lcd
        (LCD_ENTRYMODESET ||| LCD_ENTRYSHIFTDECREMENT) 0 (by decide)
  intro b bl hmem
  have h := key (Ev.write b bl) hmem
  simpa [evOk] using h

/-- C5 witness: the write of byte 0x08 in the trace of `Clear()` on a
fresh session (backlight on) indeed has bit 0x08 set. -/
theorem every_write_carries_backlight_bit_witness :
    Ev.write 0x08 true ∈ opTrace busOk 0 (NewI2CLCD 0x27 16 2) Op.clear ∧
      Nat.testBit 0x08 3 = true :=
  ⟨by decide,
    every_write_carries_backlight_bit busOk 0 (NewI2CLCD 0x27 16 2) Op.clear
      0x08 true (by decide)⟩

/-! ## Claim C6 -/

/-- C6: for every column and row (byte values), on a session whose row
count is a valid nonzero byte, `SetCursor` clamps the row to `rows - 1`
when `row >= rows`, does not clamp the column, and issues the single
command byte `LCD_SETDDRAMADDR` ORed with the DDRAM address
`col + clamped_row * 0x40` (reduced mod 256: the address is computed in
`uint8` arithmetic); the session state is unchanged. -/
theorem setCursor_clamps_row (bus : Bus) (k : Nat) (lcd : I2CLCD)
    (col row : Nat) (hcol : col < 256) (hrow : row < 256)
    (h1 : 1 ≤ lcd.rows) (h2 : lcd.rows < 256) :
    (SetCursor bus k lcd col row).2.2 =
      byteTrace lcd (LCD_SETDDRAMADDR |||
        ((col + (if row ≥ lcd.rows then lcd.rows - 1 else row) * 0x40) % 256))
        0 ∧
    (SetCursor bus k lcd col row).1 = lcd := by
  have haddr :
      (col + ((if row ≥ lcd.rows then (lcd.rows + 255) % 256 else row)
          * 0x40) % 256) % 256 =
        (col + (if row ≥ lcd.rows then lcd.rows - 1 else row) * 0x40) % 256 := by
    rcases le_or_lt lcd.rows row with h | h
    · rw [if_pos h, if_pos h]
      omega
    · rw [if_neg (not_le.mpr h), if_neg (not_le.mpr h)]
      omega
  constructor
  · have hdef : (SetCursor bus k lcd col row).2.2 =
        byteTrace lcd (LCD_SETDDRAMADDR |||
          ((col + ((if row ≥ lcd.rows then (lcd.rows + 255) % 256 else row)
            * 0x40) % 256) % 256)) 0 := rfl
    rw [hdef, haddr]
  · rfl

/-- C6 witness: the clamped-row theorem applied at column 5, row 7 on a
16×2 session: row 7 clamps to 1 and the command is 0x80 ||| 0x45. -/
theorem setCursor_clamps_row_witness :
    (SetCursor busOk 0 (NewI2CLCD 0x27 16 2) 5 7).2.2 =
      byteTrace (NewI2CLCD 0x27 16 2) (LCD_SETDDRAMADDR |||
        ((5 + (if 7 ≥ (NewI2CLCD 0x27 16 2).rows
          then (NewI2CLCD 0x27 16 2).rows - 1 else 7) * 0x40) % 256)) 0 ∧
    (SetCursor busOk 0 (NewI2CLCD 0x27 16 2) 5 7).1 = NewI2CLCD 0x27 16 2 :=
  setCursor_clamps_row busOk 0 (NewI2CLCD 0x27 16 2) 5 7
    (by decide) (by decide) (by decide) (by decide)

/-! ## Claim C8 -/

/-- The result of the print loop in closed form: one data-byte transfer
per code point, in order, each truncated to its low 8 bits. -/
theorem printLoop_eq (bus : Bus) (lcd : I2CLCD) :
    ∀ text k, printLoop bus lcd k text =
      (k + 6 * text.length,
        (text.map fun c => byteTrace lcd (c % 256) 1).flatten) := by
  intro text
  induction text with
  | nil => intro k; simp [printLoop]
  | cons c rest ih =>
    intro k
    have h : printLoop bus lcd k (c :: rest) =
        ((printLoop bus lcd (k + 6) rest).1,
          byteTrace lcd (c % 256) 1 ++ (printLoop bus lcd (k + 6) rest).2) :=
      rfl
    rw [h, ih]
    simp only [List.map_cons, List.flatten_cons, List.length_cons,
      Prod.mk.injEq]
    exact ⟨by ring, trivial⟩

/-- C8: `Print` sends exactly one data byte per Unicode code point of the
text, in order, each byte the code point truncated to its low 8 bits; the
session state is unchanged. -/
theorem print_one_byte_per_code_point (bus : Bus) (k : Nat) (lcd : I2CLCD)
    (text : List Nat) :
    (Print bus k lcd text).2.2 =
      (text.map fun c => byteTrace lcd (c % 256) 1).flatten ∧
    (Print bus k lcd text).1 = lcd := by
  constructor
  · have h : (Print bus k lcd text).2.2 = (printLoop bus lcd k text).2 := rfl
    rw [h, printLoop_eq]
  · rfl

/-! ## Claim C7 -/

/-- Mapping a function over the positions of a list is mapping it over the
list. -/
theorem map_getD_range {α β : Type} (f : α → β) (d : α) :
    ∀ l : List α,
      (List.range l.length).map (fun i => f (l.getD i d)) = l.map f := by
  intro l
  induction l with
  | nil => rfl
  | cons a l ih =>
    rw [List.length_cons, List.range_succ_eq_map]
    simp only [List.map_cons, List.map_map, List.getD_cons_zero]
    have hfun : ((fun i => f ((a :: l).getD i d)) ∘ fun n => n + 1) =
        fun i => f (l.getD i d) := by
      funext i
      simp [List.getD_cons_succ]
    rw [hfun, ih]

/-- The glyph-row loop on a list of in-bounds indices: one data-byte
transfer per index, completing successfully. -/
theorem createCharLoop_inbounds (bus : Bus) (lcd : I2CLCD) (g : List Nat) :
    ∀ is k, (∀ i ∈ is, i < g.length) →
      createCharLoop bus lcd g k is =
        (k + 6 * is.length,
          (is.map fun i => byteTrace lcd (g.getD i 0) 1).flatten, true) := by
  intro is
  induction is with
  | nil => intro k h; simp [createCharLoop]
  | cons i rest ih =>
    intro k h
    have hi : i < g.length := h i (List.mem_cons_self i rest)
    have hrec := ih (k + 6) (fun j hj => h j (List.mem_cons_of_mem i hj))
    have hstep : createCharLoop bus lcd g k (i :: rest) =
        (k + 6 + 6 * rest.length,
          byteTrace lcd (g.getD i 0) 1 ++
            (rest.map fun j => byteTrace lcd (g.getD j 0) 1).flatten,
          true) := by
      simp [createCharLoop, hi, sendData_eq, hrec,
        List.getElem?_eq_getElem hi]
    rw [hstep]
    simp only [List.map_cons, List.flatten_cons, List.length_cons,
      Prod.mk.injEq]
    exact ⟨by ring, trivial⟩

/-- The glyph-row loop over indices 0..7 when the glyph has at least 8
rows. -/
theorem createCharLoop_range8 (bus : Bus) (lcd : I2CLCD) (g : List Nat)
    (hlen : 8 ≤ g.length) (k : Nat) :
    (createCharLoop bus lcd g k (List.range 8)).2.1 =
      ((List.range 8).map fun i => byteTrace lcd (g.getD i 0) 1).flatten ∧
    (createCharLoop bus lcd g k (List.range 8)).2.2 = true := by
  have h := createCharLoop_inbounds bus lcd g (List.range 8) k
    (by intro i hi; rw [List.mem_range] at hi; omega)
  exact ⟨by rw [h], by rw [h]⟩

/-- C7: `CreateChar` masks the slot index to 3 bits — so any index is
equivalent to its residue mod 8 — issues the set-CGRAM-address command
with address `(location & 7) << 3`, then writes exactly 8 data bytes, one
per glyph row, completing without runtime failure. -/
theorem createChar_masks_and_writes_eight (bus : Bus) (k : Nat)
    (lcd : I2CLCD) (location : Nat) (g : List Nat)
    (hloc : location < 256) (hlen : g.length = 8) :
    CreateChar bus k lcd location g = CreateChar bus k lcd (location % 8) g ∧
    (CreateChar bus k lcd location g).2.2.1 =
      byteTrace lcd (LCD_SETCGRAMADDR ||| ((location % 8) <<< 3)) 0 ++
        (g.map fun b => byteTrace lcd b 1).flatten ∧
    (CreateChar bus k lcd location g).2.2.2 = true := by
  have e1 : location &&& 0x07 = location % 8 :=
    land_seven_eq_mod_eight location hloc
  have e2 : location % 8 &&& 0x07 = location % 8 := by
    rw [land_seven_eq_mod_eight (location % 8) (by omega)]
    omega
  have hloop := createCharLoop_range8 bus lcd g (by omega) (k + 6)
  have hmap :
      ((List.range 8).map fun i => byteTrace lcd (g.getD i 0) 1).flatten =
        (g.map fun b => byteTrace lcd b 1).flatten := by
    rw [← hlen]
    exact congrArg List.flatten
      (map_getD_range (fun b : Nat => byteTrace lcd b 1) 0 g)
  refine ⟨?_, ?_, ?_⟩
  · simp only [CreateChar, e1, e2]
  · have h : (CreateChar bus k lcd location g).2.2.1 =
        byteTrace lcd (LCD_SETCGRAMADDR ||| ((location &&& 0x07) <<< 3)) 0 ++
          (createCharLoop bus lcd g (k + 6) (List.range 8)).2.1 := rfl
    rw [h, e1, hloop.1, hmap]
  · have h : (CreateChar bus k lcd location g).2.2.2 =
        (createCharLoop bus lcd g (k + 6) (List.range 8)).2.2 := rfl
    rw [h, hloop.2]

/-- C7 witness: the custom-character theorem applied at slot 9 with a
concrete 8-row glyph — slot 9 behaves as its 3-bit masking 9 % 8 = 1. -/
theorem createChar_masks_and_writes_eight_witness :
    CreateChar busOk 0 (NewI2CLCD 0x27 16 2) 9 [0, 1, 2, 3, 4, 5, 6, 7] =
      CreateChar busOk 0 (NewI2CLCD 0x27 16 2) (9 % 8)
        [0, 1, 2, 3, 4, 5, 6, 7] ∧
    (CreateChar busOk 0 (NewI2CLCD 0x27 16 2) 9
        [0, 1, 2, 3, 4, 5, 6, 7]).2.2.1 =
      byteTrace (NewI2CLCD 0x27 16 2)
          (LCD_SETCGRAMADDR ||| ((9 % 8) <<< 3)) 0 ++
        (([0, 1, 2, 3, 4, 5, 6, 7] : List Nat).map fun b =>
          byteTrace (NewI2CLCD 0x27 16 2) b 1).flatten ∧
    (CreateChar busOk 0 (NewI2CLCD 0x27 16 2) 9
        [0, 1, 2, 3, 4, 5, 6, 7]).2.2.2 = true :=
  createChar_masks_and_writes_eight busOk 0 (NewI2CLCD 0x27 16 2) 9
    [0, 1, 2, 3, 4, 5, 6, 7] (by decide) (by decide)

/-! ## Claim C9 -/

/-- The no-extra-delay property distributes over append. -/
theorem onlyNibbleSettle_append {t1 t2 : List Ev}
    (h1 : onlyNibbleSettle t1) (h2 : onlyNibbleSettle t2) :
    onlyNibbleSettle (t1 ++ t2) := by
  intro ms hm
  rcases List.mem_append.mp hm with h | h
  exacts [h1 ms h, h2 ms h]

/-- A lone write performs no delay. -/
theorem onlyNibbleSettle_write (b : Nat) (bl : Bool) :
    onlyNibbleSettle [Ev.write b bl] := by
  intro ms hm
  simp at hm

/-- A lone 1 ms settle is within the allowance. -/
theorem onlyNibbleSettle_sleep1 : onlyNibbleSettle [Ev.sleep 1] := by
  intro ms hm
  simp at hm
  exact hm

/-- `expanderWrite` performs no delay. -/
theorem expanderWrite_sleeps (bus : Bus) (k : Nat) (lcd : I2CLCD) (d : Nat) :
    onlyNibbleSettle (expanderWrite bus k lcd d).2 := by
  intro ms hm
  simp [expanderWrite_eq] at hm

/-- `pulseEnable` sleeps only the 1 ms enable-edge settles. -/
theorem pulseEnable_sleeps (bus : Bus) (k : Nat) (lcd : I2CLCD) (d : Nat) :
    onlyNibbleSettle (pulseEnable bus k lcd d).2 := by
  have h : (pulseEnable bus k lcd d).2 =
      (expanderWrite bus k lcd (d ||| 0x04)).2 ++ [Ev.sleep 1] ++
        (expanderWrite bus (k + 1) lcd (d &&& 0xFB)).2 ++ [Ev.sleep 1] := rfl
  rw [h]
  exact onlyNibbleSettle_append (onlyNibbleSettle_append
    (onlyNibbleSettle_append (expanderWrite_sleeps bus k lcd (d ||| 0x04))
      onlyNibbleSettle_sleep1)
    (expanderWrite_sleeps bus (k + 1) lcd (d &&& 0xFB)))
    onlyNibbleSettle_sleep1

/-- `write4Bits` sleeps only the 1 ms enable-edge settles. -/
theorem write4Bits_sleeps (bus : Bus) (k : Nat) (lcd : I2CLCD) (d : Nat) :
    onlyNibbleSettle (write4Bits bus k lcd d).2 := by
  have h : (write4Bits bus k lcd d).2 =
      (expanderWrite bus k lcd d).2 ++ (pulseEnable bus (k + 1) lcd d).2 :=
    rfl
  rw [h]
  exact onlyNibbleSettle_append (expanderWrite_sleeps bus k lcd d)
    (pulseEnable_sleeps bus (k + 1) lcd d)

/-- `send` sleeps only the 1 ms enable-edge settles. -/
theorem send_sleeps (bus : Bus) (k : Nat) (lcd : I2CLCD) (v m : Nat) :
    onlyNibbleSettle (send bus k lcd v m).2 := by
  have h : (send bus k lcd v m).2 =
      (write4Bits bus k lcd ((v &&& 0xF0) ||| m)).2 ++
        (write4Bits bus (k + 3) lcd (((v <<< 4) &&& 0xF0) ||| m)).2 := rfl
  rw [h]
  exact onlyNibbleSettle_append
    (write4Bits_sleeps bus k lcd ((v &&& 0xF0) ||| m))
    (write4Bits_sleeps bus (k + 3) lcd (((v <<< 4) &&& 0xF0) ||| m))

/-- A flattened list of no-extra-delay traces has no extra delay. -/
theorem onlyNibbleSettle_flatten {l : List (List Ev)}
    (h : ∀ t ∈ l, onlyNibbleSettle t) : onlyNibbleSettle l.flatten := by
  intro ms hm
  rw [List.mem_flatten] at hm
  obtain ⟨t, ht, hmt⟩ := hm
  exact h t ht ms hmt

/-- The print loop sleeps only the 1 ms enable-edge settles. -/
theorem printLoop_sleeps (bus : Bus) (lcd : I2CLCD) (text : List Nat)
    (k : Nat) : onlyNibbleSettle (printLoop bus lcd k text).2 := by
  rw [printLoop_eq]
  exact onlyNibbleSettle_flatten (by
    intro t ht
    rw [List.mem_map] at ht
    obtain ⟨c, _, hc⟩ := ht
    rw [← hc]
    exact send_sleeps busOk 0 lcd (c % 256) 1)

/-- The glyph-row loop sleeps only the 1 ms enable-edge settles. -/
theorem createCharLoop_sleeps (bus : Bus) (lcd : I2CLCD) (g : List Nat) :
    ∀ is k, onlyNibbleSettle (createCharLoop bus lcd g k is).2.1 := by
  intro is
  induction is with
  | nil => intro k ms hm; simp [createCharLoop] at hm
  | cons i rest ih =>
    intro k
    by_cases h : i < g.length
    · have ht : (createCharLoop bus lcd g k (i :: rest)).2.1 =
          (sendData bus k lcd g[i]).2 ++
            (createCharLoop bus lcd g (k + 6) rest).2.1 := by
        simp [createCharLoop, h, sendData_eq]
      rw [ht]
      exact onlyNibbleSettle_append (send_sleeps bus k lcd g[i] 1)
        (ih (k + 6))
    · intro ms hm
      simp [createCharLoop, h] at hm

/-- C9: `Clear` and `Home` each issue their single command byte followed by
an additional 2 ms delay, and every steady-state operation performs no
delay beyond the per-nibble 1 ms enable-edge settle. -/
theorem clear_home_extra_delay_only (bus : Bus) (k : Nat) (lcd : I2CLCD) :
    (Clear bus k lcd).2.2 = byteTrace lcd LCD_CLEARDISPLAY 0 ++ [Ev.sleep 2] ∧
    (Home bus k lcd).2.2 = byteTrace lcd LCD_RETURNHOME 0 ++ [Ev.sleep 2] ∧
    ∀ op, steadyState op = true → onlyNibbleSettle (opTrace bus k lcd op) := by
  refine ⟨rfl, rfl, ?_⟩
  intro op hop
  cases op with
  | init => simp [steadyState] at hop
  | clear => simp [steadyState] at hop
  | home => simp [steadyState] at hop
  | print text => exact printLoop_sleeps bus lcd text k
  | setCursor col row =>
    exact send_sleeps bus k lcd
      (LCD_SETDDRAMADDR |||
        ((col + ((if row ≥ lcd.rows then (lcd.rows + 255) % 256 else row)
          * 0x40) % 256) % 256)) 0
  | displayOn =>
    exact send_sleeps bus k { lcd with display := true }
      (LCD_DISPLAYCONTROL ||| LCD_DISPLAYON) 0
  | displayOff =>
    exact send_sleeps bus k { lcd with display := false }
      (LCD_DISPLAYCONTROL ||| LCD_DISPLAYOFF) 0
  | cursorOn =>
    exact send_sleeps bus k { lcd with cursor := true }
      (LCD_DISPLAYCONTROL ||| LCD_DISPLAYON ||| LCD_CURSORON) 0
  | cursorOff =>
    exact send_sleeps bus k { lcd with cursor := false }
      (LCD_DISPLAYCONTROL ||| LCD_DISPLAYON ||| LCD_CURSOROFF) 0
  | blinkOn =>
    exact send_sleeps bus k { lcd with blink := true }
      (LCD_DISPLAYCONTROL ||| LCD_DISPLAYON ||| LCD_BLINKON) 0
  | blinkOff =>
    exact send_sleeps bus k { lcd with blink := false }
      (LCD_DISPLAYCONTROL ||| LCD_DISPLAYON ||| LCD_BLINKOFF) 0
  | backlight =>
    exact expanderWrite_sleeps bus k { lcd with backlight := true } 0x00
  | noBacklight =>
    exact expanderWrite_sleeps bus k { lcd with backlight := false } 0x00
  | createChar location charmap =>
    exact onlyNibbleSettle_append
      (send_sleeps bus k lcd
        (LCD_SETCGRAMADDR ||| ((location &&& 0x07) <<< 3)) 0)
      (createCharLoop_sleeps bus lcd charmap (List.range 8) (k + 6))
  | scrollDisplayLeft => exact send_sleeps bus k lcd LCD_SCROLLLEFT 0
  | scrollDisplayRight => exact send_sleeps bus k lcd LCD_SCROLLRIGHT 0
  | leftToRight =>
    exact send_sleeps bus k lcd (LCD_ENTRYMODESET ||| LCD_ENTRYLEFT) 0
  | rightToLeft =>
    exact send_sleeps bus k lcd (LCD_ENTRYMODESET ||| LCD_ENTRYRIGHT) 0
  | shiftIncrement =>
    exact send_sleeps bus k lcd
      (LCD_ENTRYMODESET ||| LCD_ENTRYSHIFTINCREMENT) 0
  | shiftDecrement =>
    exact send_sleeps bus k lcd
      (LCD_ENTRYMODESET ||| LCD_ENTRYSHIFTDECREMENT) 0
  | autoscroll =>
    exact send_sleeps bus k lcd
      (LCD_ENTRYMODESET ||| LCD_ENTRYSHIFTINCREMENT) 0
  | noAutoscroll =>
    exact send_sleeps bus k lcd
      (LCD_ENTRYMODESET ||| LCD_ENTRYSHIFTDECREMENT) 0

/-- C9 witness: the delay theorem applied to `SetCursor(0,0)`: it is a
steady-state operation and the 1 ms settle present in its trace satisfies
the bound. -/
theorem clear_home_extra_delay_only_witness :
    steadyState (Op.setCursor 0 0) = true ∧
    Ev.sleep 1 ∈ opTrace busOk 0 (NewI2CLCD 0x27 16 2) (Op.setCursor 0 0) ∧
    (1 : Nat) = 1 :=
  ⟨by decide, by decide,
    (clear_home_extra_delay_only busOk 0 (NewI2CLCD 0x27 16 2)).2.2
      (Op.setCursor 0 0) (by decide) 1 (by decide)⟩

/-! ## Claim C10 -/

/-- The glyph-row loop over indices 0..7 on a short glyph: it sends the
available rows, then stops at the first out-of-bounds index with the
failure flag. -/
theorem createCharLoop_short (bus : Bus) (lcd : I2CLCD) (g : List Nat)
    (hlt : g.length < 8) (k : Nat) :
    createCharLoop bus lcd g k (List.range 8) =
      (k + 6 * g.length, (g.map fun b => byteTrace lcd b 1).flatten,
        false) := by
  rcases g with _ | ⟨b0, _ | ⟨b1, _ | ⟨b2, _ | ⟨b3, _ | ⟨b4, _ | ⟨b5,
    _ | ⟨b6, _ | ⟨b7, g⟩⟩⟩⟩⟩⟩⟩⟩
  · rfl
  · rfl
  · rfl
  · rfl
  · rfl
  · rfl
  · rfl
  · rfl
  · simp at hlt
    omega

/-- C10: `CreateChar` unconditionally indexes the glyph at rows 0 through
7 after sending the CGRAM-address command: it completes without a runtime
out-of-bounds failure exactly when the glyph has at least 8 rows, and on a
shorter glyph it fails after having already emitted the CGRAM-address
command and the transfers for the rows that do exist — short glyphs are
not silently coerced. -/
theorem createChar_requires_eight_rows (bus : Bus) (k : Nat) (lcd : I2CLCD)
    (location : Nat) (charmap : List Nat) :
    ((CreateChar bus k lcd location charmap).2.2.2 = true ↔
      8 ≤ charmap.length) ∧
    (charmap.length < 8 →
      (CreateChar bus k lcd location charmap).2.2.1 =
        byteTrace lcd (LCD_SETCGRAMADDR ||| ((location &&& 0x07) <<< 3)) 0 ++
          (charmap.map fun b => byteTrace lcd b 1).flatten) := by
  have hok : (CreateChar bus k lcd location charmap).2.2.2 =
      (createCharLoop bus lcd charmap (k + 6) (List.range 8)).2.2 := rfl
  have htr : (CreateChar bus k lcd location charmap).2.2.1 =
      byteTrace lcd (LCD_SETCGRAMADDR ||| ((location &&& 0x07) <<< 3)) 0 ++
        (createCharLoop bus lcd charmap (k + 6) (List.range 8)).2.1 := rfl
  constructor
  · constructor
    · intro h
      by_contra hc
      have hlt : charmap.length < 8 := by omega
      rw [hok, createCharLoop_short bus lcd charmap hlt (k + 6)] at h
      simp at h
    · intro hge
      rw [hok, (createCharLoop_range8 bus lcd charmap hge (k + 6)).2]
  · intro hlt
    rw [htr, createCharLoop_short bus lcd charmap hlt (k + 6)]

/-- C10 witness: `CreateChar` on the 3-row glyph [1, 2, 3] fails, with the
CGRAM-address command and the three existing rows already transferred. -/
theorem createChar_requires_eight_rows_witness :
    (CreateChar busOk 0 (NewI2CLCD 0x27 16 2) 9 [1, 2, 3]).2.2.2 = false ∧
    (CreateChar busOk 0 (NewI2CLCD 0x27 16 2) 9 [1, 2, 3]).2.2.1 =
      byteTrace (NewI2CLCD 0x27 16 2)
          (LCD_SETCGRAMADDR ||| ((9 &&& 0x07) <<< 3)) 0 ++
        (([1, 2, 3] : List Nat).map fun b =>
          byteTrace (NewI2CLCD 0x27 16 2) b 1).flatten := by
  have h := createChar_requires_eight_rows busOk 0 (NewI2CLCD 0x27 16 2) 9
    [1, 2, 3]
  refine ⟨?_, h.2 (by decide)⟩
  cases hok : (CreateChar busOk 0 (NewI2CLCD 0x27 16 2) 9 [1, 2, 3]).2.2.2
  · rfl
  · exact absurd (h.1.mp hok) (by decide)

end i2clcd
